import Mathlib

/-!
Verification of the document review panel's core logic: the batch/version
data reconciler (`load_data`), the comparison pair generator
(`generate_comparison_pairs`), and the audit-trail CSV export
(`export_audit_trail`), shallowly embedded from `src/utils.py` and
`src/s3_utils.py`.
-/

set_option maxHeartbeats 1000000

/-! ## Comparison pair generator

Embedding of `generate_comparison_pairs` (src/utils.py, lines 265-272).
Python list indexing `versions[i]` becomes `List.getD` (the default is
never reached because every index used is in bounds); `versions[-1]`
is the last element, i.e. index `length - 1`. -/

def generate_comparison_pairs (versions : List Int) : List (Int × Int) :=
  if versions.length < 2 then
    []
  else
    let pairs := (List.range (versions.length - 1)).map
      (fun i => (versions.getD i 0, versions.getD (i + 1) 0))
    if versions.length > 2 then
      pairs ++ [(versions.getD 0 0, versions.getD (versions.length - 1) 0)]
    else
      pairs

/-- The index-based consecutive-pair construction of the source equals the
`zip`-with-tail presentation of "all consecutive pairs, in order". -/
lemma consecutive_pairs_eq_zip_tail (l : List Int) :
    (List.range (l.length - 1)).map (fun i => (l.getD i 0, l.getD (i + 1) 0)) =
      l.zip l.tail := by
  induction l with
  | nil => simp
  | cons a t ih =>
    cases t with
    | nil => simp
    | cons b t' =>
      have hlen : (a :: b :: t').length - 1 = ((b :: t').length - 1) + 1 := by
        simp
      rw [hlen, List.range_succ_eq_map, List.map_cons, List.map_map]
      have hcomp :
          ((fun i => ((a :: b :: t').getD i 0, (a :: b :: t').getD (i + 1) 0)) ∘
            Nat.succ) =
          (fun i => ((b :: t').getD i 0, (b :: t').getD (i + 1) 0)) := by
        funext i
        simp [Function.comp]
      rw [hcomp, ih]
      simp

/-- Indexing a list at `length - 1` with a default is `getLastD`. -/
lemma getD_length_sub_one (l : List Int) :
    l.getD (l.length - 1) 0 = l.getLastD 0 := by
  induction l with
  | nil => simp
  | cons a t ih =>
    cases t with
    | nil => simp
    | cons b t' =>
      have h1 : (a :: b :: t').length - 1 = ((b :: t').length - 1) + 1 := by
        simp
      rw [h1]
      simpa using ih

/-- Claim C2: for every strictly ascending list of at least 3 unique version
integers, `generate_comparison_pairs` returns all consecutive pairs
`(v_i, v_{i+1})` in order, followed by the span pair `(v0, vn)` as the last
element. -/
theorem generate_comparison_pairs_three_plus (versions : List Int)
    (hlen : 3 ≤ versions.length) (hasc : versions.Chain' (· < ·)) :
    generate_comparison_pairs versions =
      versions.zip versions.tail ++ [(versions.headD 0, versions.getLastD 0)] := by
  have h2 : ¬ versions.length < 2 := by omega
  have h3 : versions.length > 2 := by omega
  unfold generate_comparison_pairs
  rw [if_neg h2, if_pos h3, consecutive_pairs_eq_zip_tail, getD_length_sub_one]
  cases versions with
  | nil => simp at hlen
  | cons a t => rfl

/-- Witness for C2 at the concrete input `[1, 2, 3]`. -/
theorem generate_comparison_pairs_three_plus_witness :
    generate_comparison_pairs [1, 2, 3] =
      [1, 2, 3].zip [2, 3] ++ [(1, 3)] :=
  generate_comparison_pairs_three_plus [1, 2, 3] (by decide)
    (by simp [List.chain'_cons])

/-- Claim C3: for every version list of length exactly 2, the generator
returns exactly the single consecutive pair, with no duplicated span pair. -/
theorem generate_comparison_pairs_two (v0 v1 : Int) :
    generate_comparison_pairs [v0, v1] = [(v0, v1)] := rfl

/-- Claim C4: for every version list of length 0 or 1, the generator returns
the empty sequence. -/
theorem generate_comparison_pairs_short (versions : List Int)
    (h : versions.length < 2) :
    generate_comparison_pairs versions = [] := by
  unfold generate_comparison_pairs
  rw [if_pos h]

/-- Witness for C4 at the concrete inputs `[]` and `[7]`. -/
theorem generate_comparison_pairs_short_witness :
    generate_comparison_pairs [] = [] ∧ generate_comparison_pairs [7] = [] :=
  ⟨generate_comparison_pairs_short [] (by decide),
   generate_comparison_pairs_short [7] (by decide)⟩

/-! ## Data reconciler

Embedding of `load_data` (src/utils.py, lines 15-73) together with the parts
of `src/s3_utils.py` it calls. Ambient effects become explicit parameters:

* `manifestFile : Option (Except String (List ManifestRow))` — the manifest
  source. `none` models `os.path.exists("data/Manual_Review.csv")` being
  false (the embedded 5-row sample is used); `some (.error e)` models
  `pd.read_csv` raising; `some (.ok rows)` a successful read.
* `accessKey`, `secretKey` — the credential secrets read by `get_s3_client`
  via `get_secret`; the empty string models an unset (falsy) secret.
* `connOk : Bool` — whether the `client.list_buckets()` connection test in
  `get_s3_client` succeeds.
* `probe : String → Bool` — the behaviour of `s3_client.head_object` on a
  full key: `true` means the call returns (object present), `false` means it
  raises (object absent, or any transient per-key fault — the source catches
  both identically at src/utils.py line 51).
* `bucket` — the `bucket_name` secret, `""` modelling unset/falsy.
* `pre` — the `base_prefix` secret used by `get_full_s3_key`.
* `now` — the `datetime.now()` timestamp string.

Calls to `st.error` become an `errors : List String` stream in the result,
in emission order; `st.write` diagnostics carry no data and are omitted. -/

structure ManifestRow where
  batch : String
  batch_count : Int
  portal_status : Option String
  reason : Option String
deriving DecidableEq, Repr

structure FileRecord where
  batch : String
  type : String
  version : Int
  file_path : String
  filename : String
  timestamp : String
  portal_status : String
  reason : String
deriving DecidableEq, Repr

structure LoadResult where
  records : List FileRecord
  errors : List String
deriving DecidableEq, Repr

/-- The fixed document-type iteration order of the loop at
src/utils.py line 43. -/
def docTypes : List String := ["CI", "PL"]

/-- The embedded fallback manifest (src/utils.py, lines 21-27), used when
`data/Manual_Review.csv` does not exist. -/
def sampleManifest : List ManifestRow :=
  [⟨"B001", 1, some "Pending", some ""⟩,
   ⟨"B001", 2, some "Accepted", some "Approved by agent"⟩,
   ⟨"B002", 1, some "Rejected", some "Missing information"⟩,
   ⟨"B002", 2, some "Pending", some ""⟩,
   ⟨"B003", 1, some "Accepted", some "Complete documentation"⟩]

/-- The derived relative storage key
`f'{doc_type}/{batch}/{batch}_{count}.pdf'` (src/utils.py line 44). -/
def s3KeyFor (doc_type batch : String) (count : Int) : String :=
  doc_type ++ "/" ++ batch ++ "/" ++ batch ++ "_" ++ toString count ++ ".pdf"

/-- `get_full_s3_key` (src/s3_utils.py, lines 61-71): base prefix prepended
to the relative key. -/
def get_full_s3_key (pre relative_key : String) : String :=
  pre ++ relative_key

/-- `get_s3_client` (src/s3_utils.py, lines 15-59): returns `none` when
either credential secret is falsy or the connection test fails, otherwise
the client, modelled by its `head_object` behaviour `probe`. -/
def get_s3_client (accessKey secretKey : String) (connOk : Bool)
    (probe : String → Bool) : Option (String → Bool) :=
  if accessKey = "" ∨ secretKey = "" then none
  else if connOk then some probe else none

/-- The `s3_client.head_object(...)` call at src/utils.py line 49 as the
caller observes it: calling a method on `None` raises `AttributeError`
before any storage lookup happens, and on a real client the call raises
exactly when `probe` is `false`. -/
def headObject (client : Option (String → Bool)) (key : String) :
    Except String Unit :=
  match client with
  | none => .error "AttributeError"
  | some probe => if probe key then .ok () else .error "ClientError"

/-- The record dict appended at src/utils.py lines 55-64. -/
def mkRecord (row : ManifestRow) (doc_type now : String) : FileRecord :=
  { batch := row.batch
    type := doc_type
    version := row.batch_count
    file_path := s3KeyFor doc_type row.batch row.batch_count
    filename := row.batch ++ "_" ++ toString row.batch_count ++ ".pdf"
    timestamp := now
    portal_status := row.portal_status.getD "Unknown"
    reason := row.reason.getD "" }

/-- One iteration of the outer loop (src/utils.py lines 37-64) for a single
manifest row: the records appended and, separately, the
`File not found in S3` error messages emitted, both in `docTypes` order. -/
def reconcileRow (client : Option (String → Bool)) (pre now : String)
    (row : ManifestRow) : List FileRecord × List String :=
  (docTypes.filterMap (fun doc_type =>
      match headObject client
          (get_full_s3_key pre (s3KeyFor doc_type row.batch row.batch_count)) with
      | .ok _ => some (mkRecord row doc_type now)
      | .error _ => none),
   docTypes.filterMap (fun doc_type =>
      match headObject client
          (get_full_s3_key pre (s3KeyFor doc_type row.batch row.batch_count)) with
      | .ok _ => none
      | .error _ => some ("File not found in S3: " ++
          get_full_s3_key pre (s3KeyFor doc_type row.batch row.batch_count))))

/-- The whole loop over the manifest: concatenation of the per-row records
and, separately, of the per-row skip messages, in manifest row order. -/
def reconcile (client : Option (String → Bool)) (pre now : String)
    (manifest : List ManifestRow) : List FileRecord × List String :=
  (manifest.flatMap (fun row => (reconcileRow client pre now row).1),
   manifest.flatMap (fun row => (reconcileRow client pre now row).2))

/-- The body of `load_data` inside its outer `try` (src/utils.py lines
17-70). The only statement whose exception reaches the outer handler is the
manifest read; every `head_object` exception is caught by the inner handler
at line 51 inside `reconcileRow`. -/
def load_data_body (manifestFile : Option (Except String (List ManifestRow)))
    (accessKey secretKey : String) (connOk : Bool) (probe : String → Bool)
    (bucket pre now : String) : Except String LoadResult :=
  (match manifestFile with
    | none => Except.ok sampleManifest
    | some r => r).bind (fun manifest =>
    let client := get_s3_client accessKey secretKey connOk probe
    if bucket = "" then
      Except.ok ⟨[], ["S3 bucket name not configured"]⟩
    else
      let result := reconcile client pre now manifest
      if result.1 = [] then
        Except.ok ⟨[], result.2 ++ ["No files found in S3"]⟩
      else
        Except.ok ⟨result.1, result.2⟩)

/-- `load_data` (src/utils.py lines 15-73): the body wrapped in the outer
`except` handler (lines 71-73), which turns any escaped exception into the
`Error loading data` diagnostic plus an empty frame. -/
def load_data (manifestFile : Option (Except String (List ManifestRow)))
    (accessKey secretKey : String) (connOk : Bool) (probe : String → Bool)
    (bucket pre now : String) : LoadResult :=
  match load_data_body manifestFile accessKey secretKey connOk probe
      bucket pre now with
  | .ok r => r
  | .error e => ⟨[], ["Error loading data: " ++ e]⟩

/-- With a real client, a manifest row yields exactly the records whose
derived key the probe confirms, in `docTypes` order. -/
lemma reconcileRow_some_fst (p : String → Bool) (pre now : String)
    (row : ManifestRow) :
    (reconcileRow (some p) pre now row).1 =
      (docTypes.filter (fun t =>
          p (get_full_s3_key pre (s3KeyFor t row.batch row.batch_count)))).map
        (fun t => mkRecord row t now) := by
  cases h1 : p (get_full_s3_key pre (s3KeyFor "CI" row.batch row.batch_count)) <;>
  cases h2 : p (get_full_s3_key pre (s3KeyFor "PL" row.batch row.batch_count)) <;>
  simp [reconcileRow, docTypes, headObject, h1, h2]

/-- With a real client, a manifest row yields exactly one skip message per
derived key the probe rejects, in `docTypes` order. -/
lemma reconcileRow_some_snd (p : String → Bool) (pre now : String)
    (row : ManifestRow) :
    (reconcileRow (some p) pre now row).2 =
      (docTypes.filter (fun t =>
          ! p (get_full_s3_key pre (s3KeyFor t row.batch row.batch_count)))).map
        (fun t => "File not found in S3: " ++
          get_full_s3_key pre (s3KeyFor t row.batch row.batch_count)) := by
  cases h1 : p (get_full_s3_key pre (s3KeyFor "CI" row.batch row.batch_count)) <;>
  cases h2 : p (get_full_s3_key pre (s3KeyFor "PL" row.batch row.batch_count)) <;>
  simp [reconcileRow, docTypes, headObject, h1, h2]

/-- With a `None` client the attribute access raises for every key: no
record, both keys reported missing. -/
lemma reconcileRow_none (pre now : String) (row : ManifestRow) :
    reconcileRow none pre now row =
      ([], ["File not found in S3: " ++
              get_full_s3_key pre (s3KeyFor "CI" row.batch row.batch_count),
            "File not found in S3: " ++
              get_full_s3_key pre (s3KeyFor "PL" row.batch row.batch_count)]) := rfl

/-- Records of the full loop, with a real client, as one flat map. -/
lemma reconcile_some_fst (p : String → Bool) (pre now : String)
    (manifest : List ManifestRow) :
    (reconcile (some p) pre now manifest).1 =
      manifest.flatMap (fun row =>
        (docTypes.filter (fun t =>
            p (get_full_s3_key pre (s3KeyFor t row.batch row.batch_count)))).map
          (fun t => mkRecord row t now)) := by
  unfold reconcile
  simp only [reconcileRow_some_fst]

/-- Skip messages of the full loop, with a real client, as one flat map. -/
lemma reconcile_some_snd (p : String → Bool) (pre now : String)
    (manifest : List ManifestRow) :
    (reconcile (some p) pre now manifest).2 =
      manifest.flatMap (fun row =>
        (docTypes.filter (fun t =>
            ! p (get_full_s3_key pre (s3KeyFor t row.batch row.batch_count)))).map
          (fun t => "File not found in S3: " ++
            get_full_s3_key pre (s3KeyFor t row.batch row.batch_count))) := by
  unfold reconcile
  simp only [reconcileRow_some_snd]

/-- With a `None` client the loop emits no record and two skip messages
per manifest row. -/
lemma reconcile_none (pre now : String) (manifest : List ManifestRow) :
    reconcile none pre now manifest =
      ([], manifest.flatMap (fun row =>
        ["File not found in S3: " ++
            get_full_s3_key pre (s3KeyFor "CI" row.batch row.batch_count),
         "File not found in S3: " ++
            get_full_s3_key pre (s3KeyFor "PL" row.batch row.batch_count)])) := by
  unfold reconcile
  simp only [reconcileRow_none]
  simp

/-- Splitting `docTypes` by any predicate accounts for both entries. -/
lemma docTypes_filter_split (q : String → Bool) :
    (docTypes.filter q).length + (docTypes.filter (fun t => ! q t)).length = 2 := by
  cases h1 : q "CI" <;> cases h2 : q "PL" <;> simp [docTypes, h1, h2]

/-- With a real client, records plus skip messages account for every
(manifest row, document type) combination. -/
lemma reconcile_some_counts (p : String → Bool) (pre now : String)
    (manifest : List ManifestRow) :
    (reconcile (some p) pre now manifest).1.length +
      (reconcile (some p) pre now manifest).2.length = 2 * manifest.length := by
  induction manifest with
  | nil => simp [reconcile]
  | cons row rest ih =>
    simp only [reconcile, List.flatMap_cons, List.length_append] at ih ⊢
    have hrow := docTypes_filter_split
      (fun t => p (get_full_s3_key pre (s3KeyFor t row.batch row.batch_count)))
    rw [reconcileRow_some_fst, reconcileRow_some_snd]
    simp only [List.length_map, List.length_cons] at hrow ⊢
    omega

/-- When both credential secrets are set and the connection test passes,
`get_s3_client` returns the client. -/
lemma get_s3_client_some (ak sk : String) (p : String → Bool)
    (hak : ak ≠ "") (hsk : sk ≠ "") :
    get_s3_client ak sk true p = some p := by
  simp [get_s3_client, hak, hsk]

/-- When either credential secret is falsy, `get_s3_client` returns `None`
regardless of the connection test. -/
lemma get_s3_client_none (ak sk : String) (connOk : Bool) (p : String → Bool)
    (h : ak = "" ∨ sk = "") :
    get_s3_client ak sk connOk p = none := by
  simp [get_s3_client, h]

/-- On a readable manifest and configured bucket, `load_data` reduces to the
loop result, with the `No files found in S3` diagnostic when the loop
produced no record. -/
lemma load_data_success (manifest : List ManifestRow) (ak sk : String)
    (connOk : Bool) (p : String → Bool) (bucket pre now : String)
    (hb : bucket ≠ "") :
    load_data (some (.ok manifest)) ak sk connOk p bucket pre now =
      (let r := reconcile (get_s3_client ak sk connOk p) pre now manifest
       if r.1 = [] then ⟨[], r.2 ++ ["No files found in S3"]⟩
       else ⟨r.1, r.2⟩) := by
  unfold load_data load_data_body
  simp only [Except.bind, hb, if_false]
  by_cases h : (reconcile (get_s3_client ak sk connOk p) pre now manifest).1 = [] <;>
    simp [h]

/-- The records of a successful `load_data` run are exactly the loop's
records, whether or not the loop found anything. -/
lemma load_data_success_records (manifest : List ManifestRow) (ak sk : String)
    (connOk : Bool) (p : String → Bool) (bucket pre now : String)
    (hb : bucket ≠ "") :
    (load_data (some (.ok manifest)) ak sk connOk p bucket pre now).records =
      (reconcile (get_s3_client ak sk connOk p) pre now manifest).1 := by
  rw [load_data_success manifest ak sk connOk p bucket pre now hb]
  by_cases h : (reconcile (get_s3_client ak sk connOk p) pre now manifest).1 = [] <;>
    simp [h]

/-- Claim C1: with a constructed probe and a configured bucket,
reconciliation partitions the manifest across the two document types: the
output records are exactly the present-key records in order, the skip stream
is exactly one `File not found in S3` message per absent key, a record is in
the output if and only if its derived storage key was confirmed present by
the probe (and it carries the row's portal status and reason), and records
plus skips number `|manifest| × 2`. -/
theorem load_data_partition (manifest : List ManifestRow) (ak sk : String)
    (p : String → Bool) (bucket pre now : String)
    (hak : ak ≠ "") (hsk : sk ≠ "") (hb : bucket ≠ "") :
    (load_data (some (.ok manifest)) ak sk true p bucket pre now).records =
      manifest.flatMap (fun row =>
        (docTypes.filter (fun t =>
            p (get_full_s3_key pre (s3KeyFor t row.batch row.batch_count)))).map
          (fun t => mkRecord row t now)) ∧
    (reconcile (some p) pre now manifest).2 =
      manifest.flatMap (fun row =>
        (docTypes.filter (fun t =>
            ! p (get_full_s3_key pre (s3KeyFor t row.batch row.batch_count)))).map
          (fun t => "File not found in S3: " ++
            get_full_s3_key pre (s3KeyFor t row.batch row.batch_count))) ∧
    (∀ rec,
      rec ∈ (load_data (some (.ok manifest)) ak sk true p bucket pre now).records ↔
        ∃ row ∈ manifest, ∃ t ∈ docTypes,
          p (get_full_s3_key pre (s3KeyFor t row.batch row.batch_count)) = true ∧
          rec = mkRecord row t now) ∧
    (∀ row t,
      (mkRecord row t now).portal_status = row.portal_status.getD "Unknown" ∧
      (mkRecord row t now).reason = row.reason.getD "") ∧
    (load_data (some (.ok manifest)) ak sk true p bucket pre now).records.length +
      (reconcile (some p) pre now manifest).2.length = 2 * manifest.length := by
  have hc : get_s3_client ak sk true p = some p := get_s3_client_some ak sk p hak hsk
  have hrec := load_data_success_records manifest ak sk true p bucket pre now hb
  rw [hc] at hrec
  refine ⟨?_, reconcile_some_snd p pre now manifest, ?_, fun row t => ⟨rfl, rfl⟩, ?_⟩
  · rw [hrec, reconcile_some_fst]
  · intro rec
    rw [hrec, reconcile_some_fst]
    simp only [List.mem_flatMap, List.mem_map, List.mem_filter]
    constructor
    · rintro ⟨row, hrow, t, ⟨ht, hp⟩, hmk⟩
      exact ⟨row, hrow, t, ht, hp, hmk.symm⟩
    · rintro ⟨row, hrow, t, ht, hp, hmk⟩
      exact ⟨row, hrow, t, ⟨ht, hp⟩, hmk.symm⟩
  · rw [hrec]
    exact reconcile_some_counts p pre now manifest

/-- Witness for C1: a one-row manifest probed with only the CI key
present. -/
theorem load_data_partition_witness :
    (load_data (some (.ok [⟨"B001", 1, some "Pending", some ""⟩])) "a" "s" true
        (fun k => k = "P/CI/B001/B001_1.pdf") "b" "P/" "T").records =
      [⟨"B001", 1, some "Pending", some ""⟩].flatMap
        (fun row : ManifestRow =>
          (docTypes.filter (fun t =>
              (fun k => (k = "P/CI/B001/B001_1.pdf" : Bool))
                (get_full_s3_key "P/" (s3KeyFor t row.batch row.batch_count)))).map
            (fun t => mkRecord row t "T")) ∧
    (reconcile (some (fun k => k = "P/CI/B001/B001_1.pdf")) "P/" "T"
        [⟨"B001", 1, some "Pending", some ""⟩]).2 =
      [⟨"B001", 1, some "Pending", some ""⟩].flatMap
        (fun row : ManifestRow =>
          (docTypes.filter (fun t =>
              ! (fun k => (k = "P/CI/B001/B001_1.pdf" : Bool))
                (get_full_s3_key "P/" (s3KeyFor t row.batch row.batch_count)))).map
            (fun t => "File not found in S3: " ++
              get_full_s3_key "P/" (s3KeyFor t row.batch row.batch_count))) ∧
    (∀ rec,
      rec ∈ (load_data (some (.ok [⟨"B001", 1, some "Pending", some ""⟩])) "a" "s"
          true (fun k => k = "P/CI/B001/B001_1.pdf") "b" "P/" "T").records ↔
        ∃ row ∈ [(⟨"B001", 1, some "Pending", some ""⟩ : ManifestRow)], ∃ t ∈ docTypes,
          (fun k => (k = "P/CI/B001/B001_1.pdf" : Bool))
            (get_full_s3_key "P/" (s3KeyFor t row.batch row.batch_count)) = true ∧
          rec = mkRecord row t "T") ∧
    (∀ row t,
      (mkRecord row t "T").portal_status = row.portal_status.getD "Unknown" ∧
      (mkRecord row t "T").reason = row.reason.getD "") ∧
    (load_data (some (.ok [⟨"B001", 1, some "Pending", some ""⟩])) "a" "s" true
        (fun k => k = "P/CI/B001/B001_1.pdf") "b" "P/" "T").records.length +
      (reconcile (some (fun k => k = "P/CI/B001/B001_1.pdf")) "P/" "T"
        [⟨"B001", 1, some "Pending", some ""⟩]).2.length =
      2 * [(⟨"B001", 1, some "Pending", some ""⟩ : ManifestRow)].length :=
  load_data_partition [⟨"B001", 1, some "Pending", some ""⟩] "a" "s"
    (fun k => k = "P/CI/B001/B001_1.pdf") "b" "P/" "T"
    (by decide) (by decide) (by decide)

/-- Every field of an emitted record except the observation timestamp, the
projection on which the reconciliation output must be reproducible across
reloads. -/
def recordData (rec : FileRecord) :
    String × String × Int × String × String × String × String :=
  (rec.batch, rec.type, rec.version, rec.file_path, rec.filename,
   rec.portal_status, rec.reason)

/-- With a constructed probe and configured bucket, every field of the
emitted records except the timestamp is determined by the manifest and the
probe alone: the records are the manifest rows crossed with the present
document types, in manifest row order then `docTypes` order. -/
lemma load_data_data_eq (manifest : List ManifestRow) (ak sk : String)
    (p : String → Bool) (bucket pre now : String)
    (hak : ak ≠ "") (hsk : sk ≠ "") (hb : bucket ≠ "") :
    (load_data (some (.ok manifest)) ak sk true p bucket pre now).records.map
        recordData =
      manifest.flatMap (fun row =>
        (docTypes.filter (fun t =>
            p (get_full_s3_key pre (s3KeyFor t row.batch row.batch_count)))).map
          (fun t => (row.batch, t, row.batch_count,
            s3KeyFor t row.batch row.batch_count,
            row.batch ++ "_" ++ toString row.batch_count ++ ".pdf",
            row.portal_status.getD "Unknown", row.reason.getD ""))) := by
  rw [load_data_success_records manifest ak sk true p bucket pre now hb,
    get_s3_client_some ak sk p hak hsk, reconcile_some_fst, List.map_flatMap]
  congr 1
  funext row
  rw [List.map_map]
  congr 1

/-- Claim C5: the emitted record sequence — every field except the
observation timestamp — equals the manifest rows in row order crossed with
the fixed docType order CI-then-PL restricted to present keys, and repeated
reconciliations with the same manifest and probe responses produce the same
records in the same order, the timestamp field apart. -/
theorem load_data_order_deterministic (manifest : List ManifestRow)
    (ak sk : String) (p : String → Bool) (bucket pre now now' : String)
    (hak : ak ≠ "") (hsk : sk ≠ "") (hb : bucket ≠ "") :
    (load_data (some (.ok manifest)) ak sk true p bucket pre now).records.map
        recordData =
      manifest.flatMap (fun row =>
        (docTypes.filter (fun t =>
            p (get_full_s3_key pre (s3KeyFor t row.batch row.batch_count)))).map
          (fun t => (row.batch, t, row.batch_count,
            s3KeyFor t row.batch row.batch_count,
            row.batch ++ "_" ++ toString row.batch_count ++ ".pdf",
            row.portal_status.getD "Unknown", row.reason.getD ""))) ∧
    (load_data (some (.ok manifest)) ak sk true p bucket pre now).records.map
        recordData =
      (load_data (some (.ok manifest)) ak sk true p bucket pre now').records.map
        recordData := by
  refine ⟨load_data_data_eq manifest ak sk p bucket pre now hak hsk hb, ?_⟩
  rw [load_data_data_eq manifest ak sk p bucket pre now hak hsk hb,
    load_data_data_eq manifest ak sk p bucket pre now' hak hsk hb]

/-- Witness for C5: two manifest rows of the same batch with distinct
versions, every key present, observed at two different timestamps. -/
theorem load_data_order_deterministic_witness :
    (load_data (some (.ok [⟨"B001", 1, some "Pending", some ""⟩,
        ⟨"B001", 2, some "Accepted", some "ok"⟩])) "a" "s" true
        (fun _ => true) "b" "P/" "T1").records.map recordData =
      [⟨"B001", 1, some "Pending", some ""⟩,
       ⟨"B001", 2, some "Accepted", some "ok"⟩].flatMap
        (fun row : ManifestRow =>
          (docTypes.filter (fun t =>
              (fun _ => (true : Bool))
                (get_full_s3_key "P/" (s3KeyFor t row.batch row.batch_count)))).map
            (fun t => (row.batch, t, row.batch_count,
              s3KeyFor t row.batch row.batch_count,
              row.batch ++ "_" ++ toString row.batch_count ++ ".pdf",
              row.portal_status.getD "Unknown", row.reason.getD ""))) ∧
    (load_data (some (.ok [⟨"B001", 1, some "Pending", some ""⟩,
        ⟨"B001", 2, some "Accepted", some "ok"⟩])) "a" "s" true
        (fun _ => true) "b" "P/" "T1").records.map recordData =
      (load_data (some (.ok [⟨"B001", 1, some "Pending", some ""⟩,
        ⟨"B001", 2, some "Accepted", some "ok"⟩])) "a" "s" true
        (fun _ => true) "b" "P/" "T2").records.map recordData :=
  load_data_order_deterministic
    [⟨"B001", 1, some "Pending", some ""⟩, ⟨"B001", 2, some "Accepted", some "ok"⟩]
    "a" "s" (fun _ => true) "b" "P/" "T1" "T2" (by decide) (by decide) (by decide)

/-- Claim C6, counterexample: with credentials missing (so the probe cannot
be constructed) but a bucket configured, `load_data` does not abort with a
single fatal diagnostic: the loop still runs and reports every derived key
as `File not found in S3`, so per-key entries do reach the output. -/
theorem load_data_config_abort_cex :
    load_data (some (.ok [⟨"B001", 1, some "Pending", some ""⟩])) "" "s" true
        (fun _ => true) "b" "P/" "T" =
      ⟨[], ["File not found in S3: P/CI/B001/B001_1.pdf",
            "File not found in S3: P/PL/B001/B001_1.pdf",
            "No files found in S3"]⟩ ∧
    "File not found in S3: P/CI/B001/B001_1.pdf" ∈
      (load_data (some (.ok [⟨"B001", 1, some "Pending", some ""⟩])) "" "s" true
        (fun _ => true) "b" "P/" "T").errors := by
  constructor
  · rfl
  · decide

/-- Claim C6 (amended): if the bucket name is not configured, `load_data`
aborts at once with an empty record set and the single fatal
`S3 bucket name not configured` diagnostic; if instead a credential secret
is missing, the probe is `None` and reconciliation does not abort — the loop
runs to completion, every derived key is reported as skipped with
`File not found in S3`, no record is emitted, and the run ends with the
`No files found in S3` diagnostic. -/
theorem load_data_probe_unconstructible (manifest : List ManifestRow)
    (ak sk : String) (connOk : Bool) (p : String → Bool)
    (bucket pre now : String) :
    load_data (some (.ok manifest)) ak sk connOk p "" pre now =
      ⟨[], ["S3 bucket name not configured"]⟩ ∧
    ((ak = "" ∨ sk = "") → bucket ≠ "" →
      load_data (some (.ok manifest)) ak sk connOk p bucket pre now =
        ⟨[], (manifest.flatMap (fun row =>
            ["File not found in S3: " ++
                get_full_s3_key pre (s3KeyFor "CI" row.batch row.batch_count),
             "File not found in S3: " ++
                get_full_s3_key pre (s3KeyFor "PL" row.batch row.batch_count)])) ++
          ["No files found in S3"]⟩) := by
  constructor
  · unfold load_data load_data_body
    simp [Except.bind]
  · intro hcred hb
    rw [load_data_success manifest ak sk connOk p bucket pre now hb,
      get_s3_client_none ak sk connOk p hcred, reconcile_none]
    simp

/-- Witness for C6 (amended) at a concrete missing-credentials input. -/
theorem load_data_probe_unconstructible_witness :
    load_data (some (.ok [⟨"B002", 3, some "Rejected", some "r"⟩])) "" "s" true
        (fun _ => true) "b" "P/" "T" =
      ⟨[], ([(⟨"B002", 3, some "Rejected", some "r"⟩ : ManifestRow)].flatMap
          (fun row =>
            ["File not found in S3: " ++
                get_full_s3_key "P/" (s3KeyFor "CI" row.batch row.batch_count),
             "File not found in S3: " ++
                get_full_s3_key "P/" (s3KeyFor "PL" row.batch row.batch_count)])) ++
        ["No files found in S3"]⟩ :=
  (load_data_probe_unconstructible [⟨"B002", 3, some "Rejected", some "r"⟩]
    "" "s" true (fun _ => true) "b" "P/" "T").2 (Or.inl rfl) (by decide)

/-- Claim C7: a probe fault on a single key is non-fatal: that key's skip
message is in the skip stream, while every other (manifest row, docType)
combination whose key the probe confirms present still yields its record in
the output. -/
theorem load_data_single_key_fault (manifest : List ManifestRow)
    (row0 : ManifestRow) (t0 : String) (ak sk : String) (p : String → Bool)
    (bucket pre now : String)
    (hak : ak ≠ "") (hsk : sk ≠ "") (hb : bucket ≠ "")
    (hrow0 : row0 ∈ manifest) (ht0 : t0 ∈ docTypes)
    (hfault : p (get_full_s3_key pre (s3KeyFor t0 row0.batch row0.batch_count))
      = false) :
    ("File not found in S3: " ++
        get_full_s3_key pre (s3KeyFor t0 row0.batch row0.batch_count)) ∈
      (reconcile (some p) pre now manifest).2 ∧
    ∀ row ∈ manifest, ∀ t ∈ docTypes,
      p (get_full_s3_key pre (s3KeyFor t row.batch row.batch_count)) = true →
      mkRecord row t now ∈
        (load_data (some (.ok manifest)) ak sk true p bucket pre now).records := by
  constructor
  · rw [reconcile_some_snd]
    simp only [List.mem_flatMap, List.mem_map, List.mem_filter]
    exact ⟨row0, hrow0, t0, ⟨ht0, by simp [hfault]⟩, rfl⟩
  · intro row hrow t ht hp
    rw [load_data_success_records manifest ak sk true p bucket pre now hb,
      get_s3_client_some ak sk p hak hsk, reconcile_some_fst]
    simp only [List.mem_flatMap, List.mem_map, List.mem_filter]
    exact ⟨row, hrow, t, ⟨ht, hp⟩, rfl⟩

/-- Witness for C7: two manifest rows, with exactly the PL key of the first
row faulting. -/
theorem load_data_single_key_fault_witness :
    ("File not found in S3: " ++
        get_full_s3_key "P/" (s3KeyFor "PL" "B001" 1)) ∈
      (reconcile (some (fun k => k ≠ "P/PL/B001/B001_1.pdf")) "P/" "T"
        [⟨"B001", 1, some "Pending", some ""⟩,
         ⟨"B002", 2, some "Accepted", some "ok"⟩]).2 ∧
    ∀ row ∈ [(⟨"B001", 1, some "Pending", some ""⟩ : ManifestRow),
             ⟨"B002", 2, some "Accepted", some "ok"⟩], ∀ t ∈ docTypes,
      (fun k => (k ≠ "P/PL/B001/B001_1.pdf" : Bool))
        (get_full_s3_key "P/" (s3KeyFor t row.batch row.batch_count)) = true →
      mkRecord row t "T" ∈
        (load_data (some (.ok [⟨"B001", 1, some "Pending", some ""⟩,
            ⟨"B002", 2, some "Accepted", some "ok"⟩])) "a" "s" true
          (fun k => k ≠ "P/PL/B001/B001_1.pdf") "b" "P/" "T").records :=
  load_data_single_key_fault
    [⟨"B001", 1, some "Pending", some ""⟩, ⟨"B002", 2, some "Accepted", some "ok"⟩]
    ⟨"B001", 1, some "Pending", some ""⟩ "PL" "a" "s"
    (fun k => k ≠ "P/PL/B001/B001_1.pdf") "b" "P/" "T"
    (by decide) (by decide) (by decide) (by decide) (by decide) (by decide)

/-- Claim C8: when the manifest source is unreadable (`pd.read_csv` raises),
`load_data` produces no partial result: the outer handler yields an empty
record set together with the fatal `Error loading data` diagnostic carrying
the exception text. -/
theorem load_data_manifest_unreadable (e : String) (ak sk : String)
    (connOk : Bool) (p : String → Bool) (bucket pre now : String) :
    load_data (some (.error e)) ak sk connOk p bucket pre now =
      ⟨[], ["Error loading data: " ++ e]⟩ := rfl

/-- Claim C10: `load_data` never propagates an exception to its caller: for
every manifest source, credential state, connection state and probe
behaviour, either its body runs to completion and `load_data` returns that
result, or the body raised — which only the manifest read can do — and
`load_data` swallows the exception, returning the empty frame with the
`Error loading data` diagnostic instead of raising. -/
theorem load_data_total (manifestFile : Option (Except String (List ManifestRow)))
    (ak sk : String) (connOk : Bool) (p : String → Bool)
    (bucket pre now : String) :
    (load_data_body manifestFile ak sk connOk p bucket pre now =
        .ok (load_data manifestFile ak sk connOk p bucket pre now)) ∨
    (∃ e, manifestFile = some (.error e) ∧
      load_data manifestFile ak sk connOk p bucket pre now =
        ⟨[], ["Error loading data: " ++ e]⟩) := by
  match manifestFile with
  | some (.error e) => exact Or.inr ⟨e, rfl, rfl⟩
  | some (.ok m) =>
    left
    unfold load_data load_data_body
    simp only [Except.bind]
    by_cases hb : bucket = "" <;>
      by_cases h2 : (reconcile (get_s3_client ak sk connOk p) pre now m).1 = [] <;>
      simp [hb, h2]
  | none =>
    left
    unfold load_data load_data_body
    simp only [Except.bind]
    by_cases hb : bucket = "" <;>
      by_cases h2 :
        (reconcile (get_s3_client ak sk connOk p) pre now sampleManifest).1 = [] <;>
      simp [hb, h2]

/-! ## Audit trail CSV export

Embedding of `export_audit_trail` (src/utils.py, lines 274-304). An audit
entry is a Python dict of string fields, modelled as an association list
with distinct keys. The writer follows Python's `csv.DictWriter` with the
default dialect: fields joined by `,`, rows terminated by `\r\n`, a field
quoted (with internal quote characters doubled) exactly when it contains a
delimiter, a quote character or a line-terminator character
(QUOTE_MINIMAL); a key absent from a row writes `row.get(key) = None`,
rendered as the empty field. `fieldnames = list(set().union(...))` is an
arbitrary but fixed ordering of the key union; the model uses
first-occurrence order. The upload of the buffer to S3 carries no data
dependency and is omitted; the function's return value is the buffer. -/

abbrev AuditEntry := List (String × String)

/-- Accumulate keys into an order-preserving duplicate-free list, the
model of growing `set().union(...)` read off in a fixed order. -/
def insertKeys (acc : List String) : List String → List String
  | [] => acc
  | k :: ks => insertKeys (if k ∈ acc then acc else acc ++ [k]) ks

/-- `set().union(*(row.keys() for row in audit_trail))` as an ordered
duplicate-free list (src/utils.py line 279). -/
def unionKeys (audit_trail : List AuditEntry) : List String :=
  audit_trail.foldl (fun a e => insertKeys a (e.map Prod.fst)) []

/-- QUOTE_MINIMAL: a field needs quoting when it contains the delimiter,
the quote character, or a line-terminator character. -/
def needsQuote (s : List Char) : Bool :=
  s.contains ',' || s.contains '"' || s.contains '\r' || s.contains '\n'

/-- Double every quote character, the csv escaping of quotes inside a
quoted field. -/
def doubleQuotes : List Char → List Char
  | [] => []
  | c :: t => if c = '"' then '"' :: '"' :: doubleQuotes t else c :: doubleQuotes t

/-- Render one field, quoting it only when needed. -/
def escapeField (s : List Char) : List Char :=
  if needsQuote s then '"' :: (doubleQuotes s ++ ['"']) else s

/-- Join the rendered fields of one row with the `,` delimiter. -/
def joinFields : List (List Char) → List Char
  | [] => []
  | [f] => escapeField f
  | f :: fs => escapeField f ++ ',' :: joinFields fs

/-- One csv row: joined fields plus the default `\r\n` terminator. -/
def printRow (fields : List (List Char)) : List Char :=
  joinFields fields ++ ['\r', '\n']

/-- A whole csv document: the concatenation of its rows. -/
def printDoc (rows : List (List (List Char))) : List Char :=
  rows.flatMap printRow

/-- `export_audit_trail` (src/utils.py lines 274-304): empty input returns
`""`; otherwise the header row holds the key union and each entry becomes
one row of `row.get(key)` values in fieldname order, absent keys rendering
as empty fields. -/
def export_audit_trail (audit_trail : List AuditEntry) : String :=
  if audit_trail = [] then ""
  else
    let fieldnames := unionKeys audit_trail
    String.mk (printDoc ((fieldnames.map String.toList) ::
      audit_trail.map (fun row =>
        fieldnames.map (fun key => ((row.lookup key).getD "").toList))))

/-- Modelled from the spec: the repository exports csv but never parses it
back, so the "parsing the resulting CSV" step of the audit round-trip is
modelled here as a standard csv reader. Consume a quoted field after its
opening quote: a doubled quote character is a literal quote, a single one
closes the field. -/
def parseQuoted : List Char → Option (List Char × List Char)
  | [] => none
  | c :: t =>
    if c = '"' then
      match t with
      | [] => some ([], [])
      | c' :: t' =>
        if c' = '"' then (parseQuoted t').map (fun p => ('"' :: p.1, p.2))
        else some ([], t)
    else (parseQuoted t).map (fun p => (c :: p.1, p.2))

/-- Modelled from the spec (csv reader, continued): consume an unquoted
field up to a delimiter or line terminator. -/
def parseRaw : List Char → List Char × List Char
  | [] => ([], [])
  | c :: t =>
    if c = ',' ∨ c = '\r' ∨ c = '\n' then ([], c :: t)
    else
      let p := parseRaw t
      (c :: p.1, p.2)

/-- Modelled from the spec (csv reader, continued): one field, quoted or
raw depending on its first character. -/
def parseField : List Char → Option (List Char × List Char)
  | [] => some ([], [])
  | c :: t => if c = '"' then parseQuoted t else some (parseRaw (c :: t))

/-- Modelled from the spec (csv reader, continued): one record — fields
separated by `,`, ended by `\r\n` or the end of input. Fuelled to keep the
definition structurally total. -/
def parseRecordFuel : Nat → List Char → Option (List (List Char) × List Char)
  | 0, _ => none
  | fuel + 1, s =>
    match parseField s with
    | none => none
    | some (f, rest) =>
      match rest with
      | ',' :: r => (parseRecordFuel fuel r).map (fun p => (f :: p.1, p.2))
      | '\r' :: '\n' :: r => some ([f], r)
      | [] => some ([f], [])
      | _ => none

/-- Modelled from the spec (csv reader, continued): a document is a
sequence of records until the input is exhausted. -/
def parseDocFuel (fuel : Nat) (s : List Char) : Option (List (List (List Char))) :=
  if s = [] then some []
  else
    match fuel with
    | 0 => none
    | fuel + 1 =>
      match parseRecordFuel (s.length + 1) s with
      | none => none
      | some (r, rest) => (parseDocFuel fuel rest).map (fun rs => r :: rs)

/-- Modelled from the spec: parse a csv document into its rows of string
fields, with enough fuel for the whole input. -/
def parseCSV (s : String) : Option (List (List String)) :=
  (parseDocFuel (s.toList.length + 1) s.toList).map
    (fun rows => rows.map (fun r => r.map String.mk))

/-- Membership in the key accumulator: its elements are the old ones plus
the inserted ones. -/
lemma mem_insertKeys (ks : List String) (a : List String) (k : String) :
    k ∈ insertKeys a ks ↔ k ∈ a ∨ k ∈ ks := by
  induction ks generalizing a with
  | nil => simp [insertKeys]
  | cons x ks' ih =>
    by_cases hx : x ∈ a
    · simp only [insertKeys, hx, if_true, ih, List.mem_cons]
      constructor
      · rintro (h | h)
        · exact Or.inl h
        · exact Or.inr (Or.inr h)
      · rintro (h | rfl | h)
        · exact Or.inl h
        · exact Or.inl hx
        · exact Or.inr h
    · simp only [insertKeys, hx, if_false, ih, List.mem_append,
        List.mem_singleton, List.mem_cons]
      tauto

/-- Inserting keys preserves freedom from duplicates. -/
lemma nodup_insertKeys (ks : List String) (a : List String) (h : a.Nodup) :
    (insertKeys a ks).Nodup := by
  induction ks generalizing a with
  | nil => simpa [insertKeys]
  | cons x ks' ih =>
    by_cases hx : x ∈ a
    · simpa [insertKeys, hx] using ih a h
    · have h2 : (a ++ [x]).Nodup := by simp [List.nodup_append, h, hx]
      simpa [insertKeys, hx] using ih (a ++ [x]) h2

/-- Key union accumulated over a trail: membership characterisation. -/
lemma mem_foldl_insertKeys (audit_trail : List AuditEntry) (a : List String)
    (k : String) :
    k ∈ audit_trail.foldl (fun acc e => insertKeys acc (e.map Prod.fst)) a ↔
      k ∈ a ∨ ∃ e ∈ audit_trail, k ∈ e.map Prod.fst := by
  induction audit_trail generalizing a with
  | nil => simp
  | cons e es ih =>
    simp only [List.foldl_cons, ih, mem_insertKeys, List.mem_cons]
    constructor
    · rintro (⟨h | h⟩ | ⟨e', he', hk⟩)
      · exact Or.inl h
      · exact Or.inr ⟨e, Or.inl rfl, h⟩
      · exact Or.inr ⟨e', Or.inr he', hk⟩
    · rintro (h | ⟨e', he' | he', hk⟩)
      · exact Or.inl (Or.inl h)
      · exact Or.inl (Or.inr (he' ▸ hk))
      · exact Or.inr ⟨e', he', hk⟩

/-- The key union holds a key exactly when some audit entry holds it. -/
lemma mem_unionKeys (audit_trail : List AuditEntry) (k : String) :
    k ∈ unionKeys audit_trail ↔ ∃ e ∈ audit_trail, k ∈ e.map Prod.fst := by
  simpa [unionKeys] using mem_foldl_insertKeys audit_trail [] k

/-- The key union is duplicate-free. -/
lemma nodup_unionKeys (audit_trail : List AuditEntry) :
    (unionKeys audit_trail).Nodup := by
  unfold unionKeys
  have h : ∀ (ts : List AuditEntry) (a : List String), a.Nodup →
      (ts.foldl (fun acc e => insertKeys acc (e.map Prod.fst)) a).Nodup := by
    intro ts
    induction ts with
    | nil => intro a ha; simpa
    | cons e es ih =>
      intro a ha
      exact ih _ (nodup_insertKeys (e.map Prod.fst) a ha)
  exact h audit_trail [] (by simp)

/-- A dict lookup on a present key returns the stored value (keys are
distinct, as in a Python dict). -/
lemma lookup_eq_of_mem (e : AuditEntry) (k v : String)
    (hnd : (e.map Prod.fst).Nodup) (hmem : (k, v) ∈ e) :
    e.lookup k = some v := by
  induction e with
  | nil => simp at hmem
  | cons p e' ih =>
    obtain ⟨k', v'⟩ := p
    simp only [List.map_cons, List.nodup_cons] at hnd
    rcases List.mem_cons.mp hmem with heq | hmem'
    · obtain ⟨rfl, rfl⟩ := Prod.mk.injEq k v k' v' |>.mp heq
      simp [List.lookup_cons]
    · have hk : k ≠ k' := by
        rintro rfl
        exact hnd.1 (List.mem_map.mpr ⟨(k, v), hmem', rfl⟩)
      have hbeq : (k == k') = false := by simp [hk]
      simp only [List.lookup_cons, hbeq]
      exact ih hnd.2 hmem'

/-- A dict lookup on an absent key returns nothing. -/
lemma lookup_eq_none_of_not_mem (e : AuditEntry) (k : String)
    (h : k ∉ e.map Prod.fst) : e.lookup k = none := by
  induction e with
  | nil => rfl
  | cons p e' ih =>
    obtain ⟨k', v'⟩ := p
    simp only [List.map_cons, List.mem_cons, not_or] at h
    have hbeq : (k == k') = false := by simp [h.1]
    simp only [List.lookup_cons, hbeq]
    exact ih h.2

/-- Reading a quoted field inverts quote doubling, provided the closing
quote is followed by a delimiter, a line terminator or the end of input. -/
lemma parseQuoted_doubleQuotes (f rest : List Char)
    (h : rest.head? ≠ some '"') :
    parseQuoted (doubleQuotes f ++ '"' :: rest) = some (f, rest) := by
  induction f with
  | nil =>
    cases rest with
    | nil => simp [doubleQuotes, parseQuoted]
    | cons c' t' =>
      have hc : ¬ c' = '"' := by
        intro hc
        exact h (by simp [hc])
      simp [doubleQuotes, parseQuoted, hc]
  | cons c f' ih =>
    by_cases hc : c = '"'
    · subst hc
      simp [doubleQuotes, parseQuoted, ih]
    · have h1 : doubleQuotes (c :: f') = c :: doubleQuotes f' := by
        simp [doubleQuotes, hc]
      rw [h1, List.cons_append, parseQuoted.eq_def]
      simp [hc, ih]

/-- Reading an unquoted field stops exactly at the first delimiter or line
terminator, consuming a special-character-free body whole. -/
lemma parseRaw_append (f rest : List Char)
    (hf : ∀ c ∈ f, ¬(c = ',' ∨ c = '\r' ∨ c = '\n'))
    (hrest : rest = [] ∨ (∃ t, rest = ',' :: t) ∨ (∃ t, rest = '\r' :: t)) :
    parseRaw (f ++ rest) = (f, rest) := by
  induction f with
  | nil =>
    rcases hrest with rfl | ⟨t, rfl⟩ | ⟨t, rfl⟩ <;> simp [parseRaw]
  | cons c f' ih =>
    have hc := hf c (List.mem_cons_self c f')
    have ih' := ih (fun x hx => hf x (List.mem_cons_of_mem c hx))
    simp [parseRaw, hc, ih']

/-- Reading one field inverts minimal quoting, provided the field is
followed by a delimiter, a line terminator or the end of input. -/
lemma parseField_escapeField (f rest : List Char)
    (hrest : rest = [] ∨ (∃ t, rest = ',' :: t) ∨ (∃ t, rest = '\r' :: t)) :
    parseField (escapeField f ++ rest) = some (f, rest) := by
  by_cases hq : needsQuote f
  · have hhead : rest.head? ≠ some '"' := by
      rcases hrest with rfl | ⟨t, rfl⟩ | ⟨t, rfl⟩ <;> simp
    have hsh : escapeField f ++ rest = '"' :: (doubleQuotes f ++ '"' :: rest) := by
      simp [escapeField, hq, List.append_assoc]
    rw [hsh]
    simp [parseField, parseQuoted_doubleQuotes f rest hhead]
  · obtain ⟨⟨⟨hno1, hno2⟩, hno3⟩, hno4⟩ :
        ((',' ∉ f ∧ '"' ∉ f) ∧ '\r' ∉ f) ∧ '\n' ∉ f := by
      simpa [needsQuote, not_or] using hq
    have hnof : ∀ c ∈ f, ¬(c = ',' ∨ c = '\r' ∨ c = '\n') := by
      intro c hc
      rintro (rfl | rfl | rfl)
      · exact hno1 hc
      · exact hno3 hc
      · exact hno4 hc
    have hesc : escapeField f = f := by simp [escapeField, hq]
    rw [hesc]
    cases f with
    | nil =>
      rcases hrest with rfl | ⟨t, rfl⟩ | ⟨t, rfl⟩ <;> simp [parseField, parseRaw]
    | cons c f' =>
      have hc : ¬ c = '"' := by
        intro hc
        exact hno2 (hc ▸ List.mem_cons_self c f')
      have hraw := parseRaw_append (c :: f') rest hnof hrest
      simp only [List.cons_append, parseField, hc, if_false]
      rw [← List.cons_append]
      rw [hraw]

/-- A row has at most one field more than its rendering has characters. -/
lemma length_le_joinFields (fields : List (List Char)) :
    fields.length ≤ (joinFields fields).length + 1 := by
  induction fields with
  | nil => simp
  | cons f fs ih =>
    cases fs with
    | nil => simp [joinFields]
    | cons f2 fs' =>
      simp only [joinFields, List.length_cons, List.length_append] at ih ⊢
      omega

/-- Reading one record inverts rendering a non-empty field row, leaving the
rest of the document untouched. -/
lemma parseRecordFuel_printRow (fields : List (List Char)) (z : List Char)
    (hne : fields ≠ []) :
    ∀ fuel, fields.length ≤ fuel →
      parseRecordFuel fuel (joinFields fields ++ '\r' :: '\n' :: z) =
        some (fields, z) := by
  induction fields with
  | nil => exact absurd rfl hne
  | cons f fs ih =>
    intro fuel hfuel
    cases fuel with
    | zero => simp at hfuel
    | succ n =>
      cases fs with
      | nil =>
        have hpf := parseField_escapeField f ('\r' :: '\n' :: z)
          (Or.inr (Or.inr ⟨'\n' :: z, rfl⟩))
        simp [joinFields, parseRecordFuel, hpf]
      | cons f2 fs' =>
        have hpf := parseField_escapeField f
          (',' :: (joinFields (f2 :: fs') ++ '\r' :: '\n' :: z))
          (Or.inr (Or.inl ⟨joinFields (f2 :: fs') ++ '\r' :: '\n' :: z, rfl⟩))
        have ih' := ih (by simp) n (by simpa using hfuel)
        have hsh : joinFields (f :: f2 :: fs') ++ '\r' :: '\n' :: z =
            escapeField f ++
              (',' :: (joinFields (f2 :: fs') ++ '\r' :: '\n' :: z)) := by
          simp [joinFields, List.append_assoc]
        rw [hsh]
        simp [parseRecordFuel, hpf, ih']

/-- A document has at least one character per record (in fact two). -/
lemma length_le_printDoc (rows : List (List (List Char))) :
    rows.length ≤ (printDoc rows).length := by
  induction rows with
  | nil => simp [printDoc]
  | cons r rs ih =>
    simp only [printDoc, List.flatMap_cons, List.length_append, printRow,
      List.length_cons] at ih ⊢
    omega

/-- Unfolding the document reader one record at a time. -/
lemma parseDocFuel_succ (n : Nat) (s : List Char) (hs : s ≠ []) :
    parseDocFuel (n + 1) s =
      match parseRecordFuel (s.length + 1) s with
      | none => none
      | some (r, rest) => (parseDocFuel n rest).map (fun rs => r :: rs) := by
  conv_lhs => rw [parseDocFuel.eq_def]
  rw [if_neg hs]

/-- Reading a whole document inverts rendering a list of non-empty rows. -/
lemma parseDocFuel_printDoc (rows : List (List (List Char)))
    (h : ∀ r ∈ rows, r ≠ []) :
    ∀ fuel, rows.length ≤ fuel →
      parseDocFuel fuel (printDoc rows) = some rows := by
  induction rows with
  | nil =>
    intro fuel _
    rw [parseDocFuel.eq_def]
    simp [printDoc]
  | cons row rest ih =>
    intro fuel hfuel
    cases fuel with
    | zero => simp at hfuel
    | succ n =>
      have hrow : row ≠ [] := h row (List.mem_cons_self row rest)
      have hshape : printDoc (row :: rest) =
          joinFields row ++ '\r' :: '\n' :: printDoc rest := by
        simp [printDoc, printRow, List.append_assoc]
      have hne2 : joinFields row ++ '\r' :: '\n' :: printDoc rest ≠ [] := by
        simp
      have hb : row.length ≤
          (joinFields row ++ '\r' :: '\n' :: printDoc rest).length + 1 := by
        have h1 := length_le_joinFields row
        simp only [List.length_append, List.length_cons]
        omega
      rw [hshape, parseDocFuel_succ n _ hne2,
        parseRecordFuel_printRow row (printDoc rest) hrow _ hb]
      show (parseDocFuel n (printDoc rest)).map (fun rs => row :: rs) =
        some (row :: rest)
      rw [ih (fun r hr => h r (List.mem_cons_of_mem row hr)) n
        (by simpa using hfuel)]
      rfl

/-- Parsing any rendered document of non-empty rows recovers the rows. -/
lemma parseCSV_printDoc (rows : List (List (List Char)))
    (h : ∀ r ∈ rows, r ≠ []) :
    parseCSV (String.mk (printDoc rows)) =
      some (rows.map (fun r => r.map String.mk)) := by
  unfold parseCSV
  have h1 : (String.mk (printDoc rows)).toList = printDoc rows := rfl
  rw [h1, parseDocFuel_printDoc rows h ((printDoc rows).length + 1)
    (Nat.le_succ_of_le (length_le_printDoc rows))]
  rfl

/-- Claim C9 (amended): for every non-empty audit trail whose entries have
distinct keys and whose key union is non-empty, exporting and parsing the
csv yields the header row equal to the key union followed by exactly one
data row per entry holding, for each header field, the entry's original
value when the field is present and the empty string when it is absent.
(The key-union hypothesis is necessary: a trail of entirely empty entries
exports as bare line terminators, whose parse does not reproduce the empty
header.) -/
theorem export_audit_trail_roundtrip (audit_trail : List AuditEntry)
    (hne : audit_trail ≠ [])
    (hnodup : ∀ e ∈ audit_trail, (e.map Prod.fst).Nodup)
    (hkeys : unionKeys audit_trail ≠ []) :
    parseCSV (export_audit_trail audit_trail) =
      some (unionKeys audit_trail ::
        audit_trail.map (fun e =>
          (unionKeys audit_trail).map (fun k => (e.lookup k).getD ""))) ∧
    (audit_trail.map (fun e =>
        (unionKeys audit_trail).map (fun k => (e.lookup k).getD ""))).length =
      audit_trail.length ∧
    (unionKeys audit_trail).Nodup ∧
    (∀ k, k ∈ unionKeys audit_trail ↔ ∃ e ∈ audit_trail, k ∈ e.map Prod.fst) ∧
    (∀ e ∈ audit_trail, ∀ k v, (k, v) ∈ e → (e.lookup k).getD "" = v) ∧
    (∀ e ∈ audit_trail, ∀ k, k ∉ e.map Prod.fst → (e.lookup k).getD "" = "") := by
  refine ⟨?_, by simp, nodup_unionKeys audit_trail,
    fun k => mem_unionKeys audit_trail k, ?_, ?_⟩
  · have hexp : export_audit_trail audit_trail =
        String.mk (printDoc (((unionKeys audit_trail).map String.toList) ::
          audit_trail.map (fun row => (unionKeys audit_trail).map
            (fun key => ((row.lookup key).getD "").toList)))) := by
      unfold export_audit_trail
      rw [if_neg hne]
    have hall : ∀ r ∈ (((unionKeys audit_trail).map String.toList) ::
        audit_trail.map (fun row => (unionKeys audit_trail).map
          (fun key => ((row.lookup key).getD "").toList))), r ≠ [] := by
      intro r hr
      rcases List.mem_cons.mp hr with rfl | hr'
      · intro hnil
        exact hkeys (List.map_eq_nil_iff.mp hnil)
      · obtain ⟨e, _, rfl⟩ := List.mem_map.mp hr'
        intro hnil
        exact hkeys (List.map_eq_nil_iff.mp hnil)
    rw [hexp, parseCSV_printDoc _ hall]
    have hcomp2 : (String.mk ∘ String.toList) = id := by
      funext s
      simp
    simp [List.map_map, Function.comp, hcomp2]
  · intro e he k v hkv
    rw [lookup_eq_of_mem e k v (hnodup e he) hkv]
    rfl
  · intro e _ k hk
    rw [lookup_eq_none_of_not_mem e k hk]
    rfl

/-- Claim C9, counterexample: a trail holding one empty entry (an entry with
no fields) exports as two bare line terminators; parsing that yields a
header row with a single empty-named field, which is not the (empty) union
of the entries' keys — so the round-trip property fails as stated for this
input. -/
theorem export_audit_trail_roundtrip_cex :
    parseCSV (export_audit_trail [([] : AuditEntry)]) = some [[""], [""]] ∧
    unionKeys [([] : AuditEntry)] = [] ∧
    ([""] : List String) ≠ ([] : List String) := by
  refine ⟨?_, rfl, by simp⟩
  rfl

/-- Witness for C9 (amended) at the concrete one-entry trail
`[{"k": "v"}]`. -/
theorem export_audit_trail_roundtrip_witness :
    parseCSV (export_audit_trail [[("k", "v")]]) =
      some (unionKeys [[("k", "v")]] ::
        [[("k", "v")]].map (fun e =>
          (unionKeys [[("k", "v")]]).map (fun k => (e.lookup k).getD ""))) ∧
    ([[("k", "v")]].map (fun e =>
        (unionKeys [[("k", "v")]]).map (fun k => (e.lookup k).getD ""))).length =
      [[("k", "v")]].length ∧
    (unionKeys [[("k", "v")]]).Nodup ∧
    (∀ k, k ∈ unionKeys [[("k", "v")]] ↔
      ∃ e ∈ [[("k", "v")]], k ∈ e.map Prod.fst) ∧
    (∀ e ∈ [[("k", "v")]], ∀ k v, (k, v) ∈ e → (e.lookup k).getD "" = v) ∧
    (∀ e ∈ [[("k", "v")]], ∀ k, k ∉ e.map Prod.fst →
      (e.lookup k).getD "" = "") :=
  export_audit_trail_roundtrip [[("k", "v")]] (by decide) (by decide) (by decide)
